import Mathlib

/-!
Verification of the `imagist` image-processing package (gocipe-upload).

This file gives a shallow embedding of the package's data model and of its
three operational layers — the `Add` validator, the `listen` dispatcher loop,
and the `execute` / `imageProcess` transform pipeline — and proves the
spec's claims about them.

Modelling conventions:
* Go `int` is modelled as `Int`; Go integer division (truncation toward
  zero) is `Int.tdiv`.
* External effects (the `imaging` library, `os`, the asset box) are
  modelled by oracles collected in a `World` record: each call site that
  can fail consults a Boolean oracle keyed by the path/key it receives,
  and decoded images are represented symbolically by the `Img` inductive,
  which records exactly the sequence of `imaging` operations the code
  performs, so that two runs produce equal `Img` values iff the code
  performed the same operations on the same inputs.
* Pointers: `FormatDimensions.Watermark` is a `*WatermarkPosition` in Go;
  the functions here return the final value of the pointed-to cell so that
  in-place mutation through the pointer is observable in the model.
-/

namespace Imagist

/-! ## Data model (verbatim from the source) -/

/-- Anchor constant `Left` (Go `iota` value 0). -/
def Left : Int := 0
/-- Anchor constant `Right` (Go `iota` value 1). -/
def Right : Int := 1
/-- Anchor constant `Top` (Go `iota` value 2). -/
def Top : Int := 2
/-- Anchor constant `Bottom` (Go `iota` value 3). -/
def Bottom : Int := 3
/-- Anchor constant `Center` (Go `iota` value 4). -/
def Center : Int := 4

/-- `WatermarkPosition` holds the watermark position. -/
structure WatermarkPosition where
  Horizontal : Int
  Vertical   : Int
  OffsetX    : Int
  OffsetY    : Int
deriving Repr, DecidableEq

/-- `FormatDimensions` holds dimensions options for one output format.
The Go `Watermark *WatermarkPosition` pointer is modelled as an `Option`
(the cell's current value; `none` models a nil pointer). -/
structure FormatDimensions where
  Name      : String
  Width     : Int
  Height    : Int
  Backdrop  : Bool
  Watermark : Option WatermarkPosition
deriving Repr, DecidableEq

/-- `ImageDimensions` holds dimensions options. -/
structure ImageDimensions where
  MinWidth  : Int
  MinHeight : Int
  Formats   : List FormatDimensions
deriving Repr, DecidableEq

/-- Go's `image.Config` as produced by `image.DecodeConfig`: the decoded
header dimensions of the original image. -/
structure ImageConfig where
  Width  : Int
  Height : Int
deriving Repr, DecidableEq

/-- `Job` represents an image processing task. -/
structure Job where
  FileDiskPath : String
  Config       : ImageConfig
  Dimensions   : ImageDimensions
deriving Repr, DecidableEq

/-- Modelled from the spec: `util.NoLimit`, the "no floor" sentinel for
`MinWidth` / `MinHeight` (the `util` package is not among the sources; the
spec only states that it is a sentinel meaning "do not enforce this floor",
so the concrete value is irrelevant to every claim below). -/
def NoLimit : Int := -1

/-- `DefaultDimensions` represent default dimensions to use; they have no
limit (preserve original). -/
def DefaultDimensions : ImageDimensions :=
  { MinWidth := NoLimit, MinHeight := NoLimit, Formats := [] }

/-- File type constant `jpg`. -/
def TypeImageJPG : String := "jpg"
/-- File type constant `jpeg`. -/
def TypeImageJPEG : String := "jpeg"
/-- File type constant `png`. -/
def TypeImagePNG : String := "png"

/-- The decode formats registered in `init`: jpeg, png and gif
(`image.RegisterFormat` calls). -/
def registeredFormats : List String := ["jpeg", "png", "gif"]

/-! ## Validator (`Add`, up to the enqueue) -/

/-- Outcome of the external header inspection of a byte buffer:
`filetype.IsImage` plus `image.DecodeConfig`.  A buffer is modelled by
what those two calls return for it. -/
inductive BufferInfo where
  /-- `filetype.IsImage` returned false. -/
  | notImage
  /-- `image.DecodeConfig` returned an error. -/
  | decodeErr
  /-- header decode succeeded with config and format name. -/
  | decoded (cfg : ImageConfig) (imgType : String)
deriving Repr, DecidableEq

/-- The errors `Add` can return (the source formats them with
`fmt.Errorf`; they are distinguished here by construction site). -/
inductive AddError where
  | notAnImage
  | decodeError
  | unsupportedType (t : String)
  | belowMinWidth (m : Int)
  | belowMinHeight (m : Int)
deriving Repr, DecidableEq

/-- `Add` creates a job entry for processing: validation followed by the
job value that is sent on the `jobs` channel (`.ok`), or the error
returned to the caller (`.error`, in which case nothing is enqueued). -/
def Add (buf : BufferInfo) (fileDiskPath : String)
    (dimensions : Option ImageDimensions) (validate : Bool) :
    Except AddError Job :=
  match buf with
  | .notImage => .error .notAnImage
  | .decodeErr => .error .decodeError
  | .decoded cfg imgType =>
    let dims := dimensions.getD DefaultDimensions
    if imgType = TypeImageJPG ∨ imgType = TypeImageJPEG ∨ imgType = TypeImagePNG then
      if validate then
        if dims.MinWidth ≠ NoLimit ∧ cfg.Width < dims.MinWidth then
          .error (.belowMinWidth dims.MinWidth)
        else if dims.MinHeight ≠ NoLimit ∧ cfg.Height < dims.MinHeight then
          .error (.belowMinHeight dims.MinHeight)
        else
          .ok { FileDiskPath := fileDiskPath, Config := cfg, Dimensions := dims }
      else
        .ok { FileDiskPath := fileDiskPath, Config := cfg, Dimensions := dims }
    else
      .error (.unsupportedType imgType)

/-! ## Dispatcher (`listen`) -/

/-- One event serviced by the `select` in `listen`: either a job received
on the `jobs` channel or a path received on the `done` channel. -/
inductive Event where
  | newJob (j : Job)
  | done (key : String)
deriving Repr, DecidableEq

/-- The dispatcher state: the `jobs` map of in-flight file keys (only
membership is ever consulted, so it is a duplicate-free list), and the log
of `go i.execute(job)` spawns in order. -/
structure DState where
  inflight : List String
  spawned  : List Job
deriving Repr, DecidableEq

/-- One iteration of the `listen` loop. -/
def dstep (s : DState) : Event → DState
  | .done k => { s with inflight := s.inflight.erase k }
  | .newJob j =>
    if j.FileDiskPath ∈ s.inflight then s
    else { inflight := j.FileDiskPath :: s.inflight, spawned := s.spawned ++ [j] }

/-- The dispatcher run from its initial state (empty map, nothing
spawned) over a sequence of channel events. -/
def drun (tr : List Event) : DState :=
  tr.foldl dstep { inflight := [], spawned := [] }

/-! ## Transform engine (`execute` and `imageProcess`) -/

/-- Go `color.NRGBA`. -/
structure NRGBA where
  r : Nat
  g : Nat
  b : Nat
  a : Nat
deriving Repr, DecidableEq

/-- The fixed fallback backdrop color `color.NRGBA{0, 29, 56, 0}`
(deep navy, alpha fully transparent). -/
def navyFallback : NRGBA := { r := 0, g := 29, b := 56, a := 0 }

/-- Environment mode (`util.EnvironmentDEV` / `util.EnvironmentPROD`). -/
inductive EnvMode where
  | DEV
  | PROD
deriving Repr, DecidableEq

/-- The package-level configuration read by `imageProcess`:
`_env`, `_diskPathWatermark`, `_diskPathBackdrop`. -/
structure Config where
  env               : EnvMode
  diskPathWatermark : String
  diskPathBackdrop  : String
deriving Repr, DecidableEq

/-- Symbolic image values: each constructor records one `imaging` library
operation performed by the code, so the produced `Img` is a faithful trace
of the compositing the code did.  All `imaging` outputs have zero-origin
bounds. -/
inductive Img where
  /-- an image opened from disk with `imaging.Open`. -/
  | src (path : String)
  /-- an asset decoded with `image.Decode` from the asset box, with its
  decoded pixel dimensions. -/
  | asset (key : String) (w h : Int)
  /-- `imaging.New w h c`: a solid-color canvas. -/
  | solid (w h : Int) (c : NRGBA)
  /-- `imaging.Fit i w h imaging.Lanczos`. -/
  | fit (i : Img) (w h : Int)
  /-- `imaging.Fill i w h imaging.Center imaging.Lanczos`. -/
  | fill (i : Img) (w h : Int)
  /-- `imaging.OverlayCenter bg fg 1.0`. -/
  | overlayCenter (bg fg : Img)
  /-- `imaging.Overlay bg fg (x, y) 1.0`. -/
  | overlay (bg fg : Img) (x y : Int)
deriving Repr, DecidableEq

/-- The external-world oracles: success/failure of each effectful call,
keyed by the path or asset key the code passes, plus the pixel dimensions
of externally decoded images. -/
structure World where
  /-- does `imaging.Open` succeed on this disk path? -/
  diskOk : String → Bool
  /-- pixel dimensions of the image decoded by `imaging.Open`. -/
  srcDims : String → Int × Int
  /-- does `_assetBox.Open` succeed on this key? -/
  boxOk : String → Bool
  /-- does `image.Decode` succeed on the opened asset file? -/
  boxDecodeOk : String → Bool
  /-- pixel dimensions of the decoded asset. -/
  boxDims : String → Int × Int
  /-- does `imaging.FormatFromFilename` recognize this file name? -/
  formatOk : String → Bool
  /-- does `os.Create` succeed on this path? -/
  createOk : String → Bool
  /-- does `imaging.Encode` succeed for this output path? -/
  encodeOk : String → Bool

/-- Result dimensions of `imaging.Fit src maxW maxH`: empty output on a
non-positive box or empty source; a source already inside the box is
returned unchanged; otherwise the source is scaled down preserving aspect
ratio.  (The library computes the scaled axis in `float64`; it is
approximated here by exact integer division — no theorem below depends on
this branch.) -/
def fitDims (srcW srcH maxW maxH : Int) : Int × Int :=
  if maxW ≤ 0 ∨ maxH ≤ 0 then (0, 0)
  else if srcW ≤ 0 ∨ srcH ≤ 0 then (0, 0)
  else if srcW ≤ maxW ∧ srcH ≤ maxH then (srcW, srcH)
  else if srcW * maxH > maxW * srcH then (maxW, Int.tdiv (maxW * srcH) srcW)
  else (Int.tdiv (maxH * srcW) srcH, maxH)

/-- Result dimensions of `imaging.Fill src dstW dstH`: empty output on a
non-positive box or empty source, else exactly the requested box. -/
def fillDims (srcW srcH dstW dstH : Int) : Int × Int :=
  if dstW ≤ 0 ∨ dstH ≤ 0 then (0, 0)
  else if srcW ≤ 0 ∨ srcH ≤ 0 then (0, 0)
  else (dstW, dstH)

/-- `img.Bounds()` dimensions (`Dx`, `Dy`) of a symbolic image; `imaging`
canvases are zero-origin, so `Bounds().Min = (0, 0)` for every value
produced by the pipeline. -/
def Img.boundsDims (w : World) : Img → Int × Int
  | .src p => w.srcDims p
  | .asset k _ _ => w.boxDims k
  | .solid sw sh _ => if sw ≤ 0 ∨ sh ≤ 0 then (0, 0) else (sw, sh)
  | .fit i fw fh =>
    ((i.boundsDims w).1, (i.boundsDims w).2) |> fun s => fitDims s.1 s.2 fw fh
  | .fill i fw fh =>
    ((i.boundsDims w).1, (i.boundsDims w).2) |> fun s => fillDims s.1 s.2 fw fh
  | .overlayCenter bg _ => bg.boundsDims w
  | .overlay bg _ _ _ => bg.boundsDims w

/-- The watermark placement switch (source lines of the two `switch`
statements): given the background bounds (origin and `Dx`/`Dy`) and the
watermark dimensions, returns the placement point and the final value of
the `WatermarkPosition` cell (the `default` cases assign `Left` / `Top`
through the pointer and fall through). -/
def watermarkPoint (pos : WatermarkPosition) (bgMinX bgMinY bgW bgH wmW wmH : Int) :
    (Int × Int) × WatermarkPosition :=
  let x :=
    if pos.Horizontal = Right then (bgMinX + bgW - wmW) - pos.OffsetX
    else if pos.Horizontal = Center then
      (bgMinX + Int.tdiv bgW 2) - Int.tdiv wmW 2 + pos.OffsetX
    else pos.OffsetX
  let hFinal := if pos.Horizontal = Left ∨ pos.Horizontal = Right ∨ pos.Horizontal = Center
    then pos.Horizontal else Left
  let y :=
    if pos.Vertical = Bottom then (bgMinY + bgH - wmH) - pos.OffsetY
    else if pos.Vertical = Center then
      (bgMinY + Int.tdiv bgH 2) - Int.tdiv wmH 2 + pos.OffsetY
    else pos.OffsetY
  let vFinal := if pos.Vertical = Top ∨ pos.Vertical = Bottom ∨ pos.Vertical = Center
    then pos.Vertical else Top
  ((x, y), { pos with Horizontal := hFinal, Vertical := vFinal })

deriving instance DecidableEq for Except

/-- The distinct error exits of `imageProcess` (each `errors.Wrap` site). -/
inductive ProcError where
  | openError
  | watermarkNotFound
  | formatError
  | createError
  | encodeError
deriving Repr, DecidableEq

/-- Result of one `imageProcess` call: the returned value (`.ok` carries
the written output path and the encoded image), plus the final value of
the `format.Watermark` cell, which the watermark switch may have mutated
in place through the pointer. -/
structure ProcOut where
  res    : Except ProcError (String × Img)
  wmCell : Option WatermarkPosition
deriving Repr, DecidableEq

/-- `"../assets/"`, the prefix prepended to asset paths in the DEV
environment. -/
def assetsPrefix : String := "../assets/"

/-- The outcome of the backdrop-layer load (`err == nil` iff `some`):
`none` models every case in which `err != nil` holds at the fallback test
(in PROD an `Open` failure assigns the fallback and then `image.Decode`
on the nil file handle fails, landing in the same fallback branch). -/
def backdropLoad (cfg : Config) (w : World) : Option Img :=
  match cfg.env with
  | .DEV =>
    if w.diskOk (assetsPrefix ++ cfg.diskPathBackdrop) then
      some (.src (assetsPrefix ++ cfg.diskPathBackdrop))
    else none
  | .PROD =>
    if w.boxOk cfg.diskPathBackdrop then
      if w.boxDecodeOk cfg.diskPathBackdrop then
        some (.asset cfg.diskPathBackdrop
          (w.boxDims cfg.diskPathBackdrop).1 (w.boxDims cfg.diskPathBackdrop).2)
      else none
    else none

/-- The composite built by `imageProcess` before the watermark stage:
the backdrop path (`Fit` the source into the box, load or synthesize the
backdrop, `Fill` it to the format's box, overlay in center) when
`format.Backdrop && !landscape`, else the standard `Fill` path. -/
def baseImage (cfg : Config) (w : World) (imgDiskPath : String)
    (newWidth newHeight : Int) (landscape : Bool) (format : FormatDimensions) : Img :=
  -- Do not crop and resize when using backdrop but downscale
  if format.Backdrop && !landscape then
    -- Scale down srcImage to fit the bounding box
    let fitted : Img := .fit (.src imgDiskPath) newWidth newHeight
    let back : Img :=
      match backdropLoad cfg w with
      -- if err, fall back to a blue background backdrop
      | none => .solid format.Width format.Height navyFallback
      -- Resize and crop backdrop accordingly
      | some b => .fill b format.Width format.Height
    -- Overlay image in center on backdrop layer
    .overlayCenter back fitted
  else
    -- Resize and crop the image to fill the [newWidth x newHeight] area
    .fill (.src imgDiskPath) newWidth newHeight

/-- `imageProcess`: open the source, take the backdrop path or the
standard fill path, optionally overlay the watermark, then encode to
`imgDiskPath:formatName`. -/
def imageProcess (cfg : Config) (w : World) (imgDiskPath : String)
    (newWidth newHeight : Int) (landscape : Bool) (format : FormatDimensions) :
    ProcOut :=
  if w.diskOk imgDiskPath then
    let img1 : Img := baseImage cfg w imgDiskPath newWidth newHeight landscape format
    let wmStage : Except ProcError Img × Option WatermarkPosition :=
      match format.Watermark with
      | none => (.ok img1, none)
      | some pos =>
        let key := cfg.diskPathWatermark ++ ":" ++ format.Name
        -- `.error true` = the PROD `Open` failure, which returns
        -- "watermark not found"; `.error false` = every other load
        -- failure, after which `err != nil` skips the overlay silently.
        let wmLoad : Except Bool Img :=
          match cfg.env with
          | .DEV =>
            if w.diskOk (assetsPrefix ++ key) then .ok (.src (assetsPrefix ++ key))
            else .error false
          | .PROD =>
            if w.boxOk key then
              if w.boxDecodeOk key then .ok (.asset key (w.boxDims key).1 (w.boxDims key).2)
              else .error false
            else .error true
        match wmLoad with
        | .error true => (.error .watermarkNotFound, some pos)
        | .error false => (.ok img1, some pos)
        | .ok wm =>
          let bg := img1.boundsDims w
          let wmb := wm.boundsDims w
          let placed := watermarkPoint pos 0 0 bg.1 bg.2 wmb.1 wmb.2
          (.ok (.overlay img1 wm placed.1.1 placed.1.2), some placed.2)
    match wmStage with
    | (.error e, cell) => { res := .error e, wmCell := cell }
    | (.ok img2, cell) =>
      if w.formatOk imgDiskPath then
        let newDiskPath := imgDiskPath ++ ":" ++ format.Name
        if w.createOk newDiskPath then
          if w.encodeOk newDiskPath then
            { res := .ok (newDiskPath, img2), wmCell := cell }
          else
            { res := .error .encodeError, wmCell := cell }
        else
          { res := .error .createError, wmCell := cell }
      else
        { res := .error .formatError, wmCell := cell }
  else
    { res := .error .openError, wmCell := format.Watermark }

/-- The target-dimension computation at the top of `execute`'s loop body,
verbatim: note that the height branch compares `j.Config.Height` with
itself (the source reads `if j.Config.Height < j.Config.Height`), so the
requested height is never capped. -/
def targetDims (cfg : ImageConfig) (format : FormatDimensions) : Int × Int :=
  let newWidth := if cfg.Width < format.Width then cfg.Width else format.Width
  let newHeight := if cfg.Height < cfg.Height then cfg.Height else format.Height
  (newWidth, newHeight)

/-- `landscape := j.Config.Height < j.Config.Width` in `execute`. -/
def landscapeOf (cfg : ImageConfig) : Bool :=
  decide (cfg.Height < cfg.Width)

/-- The loop body of `execute` over a list of format entries: invalid
entries are skipped with `continue`; for the rest `imageProcess` is called
and its return value discarded.  Returns the successfully written outputs
in order, and the post-state of each entry (reflecting any in-place
mutation of its `Watermark` cell). -/
def executeFormats (cfg : Config) (w : World) (j : Job) :
    List FormatDimensions → List (String × Img) × List FormatDimensions
  | [] => ([], [])
  | format :: rest =>
    let r := executeFormats cfg w j rest
    if format.Name = "" ∨ format.Width ≤ 0 ∨ format.Height ≤ 0 then
      (r.1, format :: r.2)
    else
      let t := targetDims j.Config format
      let p := imageProcess cfg w j.FileDiskPath t.1 t.2 (landscapeOf j.Config) format
      (match p.res with
        | .ok out => out :: r.1
        | .error _ => r.1,
       { format with Watermark := p.wmCell } :: r.2)

/-- `execute j` runs the loop over `j.Dimensions.Formats` (and then
signals `done`, which is the dispatcher's `Event.done`). -/
def execute (cfg : Config) (w : World) (j : Job) :
    List (String × Img) × List FormatDimensions :=
  executeFormats cfg w j j.Dimensions.Formats

/-- Does a produced image have the backdrop-composite shape
(`imaging.OverlayCenter` at the top)?  `imageProcess` produces this node
exactly when it takes the backdrop branch. -/
def Img.isBackdropComposite : Img → Bool
  | .overlayCenter _ _ => true
  | _ => false

/-! ## Helper lemmas -/

theorem dstep_nodup {s : DState} (h : s.inflight.Nodup) (e : Event) :
    (dstep s e).inflight.Nodup := by
  cases e with
  | done k => exact h.erase k
  | newJob j =>
    by_cases hm : j.FileDiskPath ∈ s.inflight
    · simp [dstep, hm, h]
    · simp [dstep, hm]
      exact h

theorem drun_nodup (tr : List Event) : (drun tr).inflight.Nodup := by
  have general : ∀ (l : List Event) (s : DState), s.inflight.Nodup →
      (l.foldl dstep s).inflight.Nodup := by
    intro l
    induction l with
    | nil => intro s hs; simpa using hs
    | cons e rest ih =>
      intro s hs
      simpa using ih (dstep s e) (dstep_nodup hs e)
  exact general tr _ (by simp)

/-! ## Example instances used by witnesses and counterexamples -/

/-- Example job: a first submission of file key `up/1.jpg`. -/
def jobA : Job :=
  { FileDiskPath := "up/1.jpg", Config := { Width := 100, Height := 50 },
    Dimensions := DefaultDimensions }

/-- Example job: a second submission of the same file key with different
parameters (the ones that get discarded on duplicate admission). -/
def jobB : Job :=
  { FileDiskPath := "up/1.jpg", Config := { Width := 9, Height := 9 },
    Dimensions := { MinWidth := 3, MinHeight := 3, Formats := [] } }

/-- A DEV-environment configuration. -/
def cfgDEV : Config :=
  { env := .DEV, diskPathWatermark := "wm.png", diskPathBackdrop := "bd.png" }

/-- A PROD-environment configuration. -/
def cfgPROD : Config :=
  { env := .PROD, diskPathWatermark := "wm.png", diskPathBackdrop := "bd.png" }

/-- A world in which every effectful call succeeds. -/
def worldAllOk : World :=
  { diskOk := fun _ => true, srcDims := fun _ => (100, 100),
    boxOk := fun _ => true, boxDecodeOk := fun _ => true, boxDims := fun _ => (10, 10),
    formatOk := fun _ => true, createOk := fun _ => true, encodeOk := fun _ => true }

/-- A world in which the asset box fails every `Open` while everything
else succeeds (forcing the Asset Provider to fail in PROD). -/
def worldBoxFails : World :=
  { worldAllOk with boxOk := fun _ => false }

/-- A world in which `imaging.Open` succeeds only on the source file
`up/img.jpg` (so every DEV asset load fails). -/
def worldOnlySource : World :=
  { worldAllOk with diskOk := fun p => p = "up/img.jpg" }

/-- A format entry carrying a watermark position. -/
def fmtWatermarked : FormatDimensions :=
  { Name := "thumb", Width := 50, Height := 40, Backdrop := false,
    Watermark := some { Horizontal := Left, Vertical := Top, OffsetX := 0, OffsetY := 0 } }

/-- A backdrop format entry without watermark. -/
def fmtBackdrop : FormatDimensions :=
  { Name := "hero", Width := 50, Height := 40, Backdrop := true, Watermark := none }

/-- A valid plain format entry. -/
def fmtGood : FormatDimensions :=
  { Name := "small", Width := 20, Height := 20, Backdrop := false, Watermark := none }

/-- An invalid format entry (non-positive width). -/
def fmtBad : FormatDimensions :=
  { Name := "broken", Width := 0, Height := 20, Backdrop := false, Watermark := none }

/-- A second valid plain format entry, after the invalid one. -/
def fmtGood2 : FormatDimensions :=
  { Name := "large", Width := 80, Height := 80, Backdrop := false, Watermark := none }

/-- A watermark position whose anchors are both unrecognized values. -/
def posOdd : WatermarkPosition :=
  { Horizontal := 9, Vertical := 9, OffsetX := 1, OffsetY := 2 }

/-- A format entry whose watermark position carries unrecognized anchors. -/
def fmtOdd : FormatDimensions :=
  { Name := "wm", Width := 30, Height := 30, Backdrop := false, Watermark := some posOdd }

/-- A job whose only format is `fmtOdd`. -/
def jobOdd : Job :=
  { FileDiskPath := "up/2.png", Config := { Width := 100, Height := 100 },
    Dimensions := { MinWidth := NoLimit, MinHeight := NoLimit, Formats := [fmtOdd] } }

/-- A job with a square source image whose only format is `fmtBackdrop`. -/
def jobSquare : Job :=
  { FileDiskPath := "up/1.jpg", Config := { Width := 100, Height := 100 },
    Dimensions := { MinWidth := NoLimit, MinHeight := NoLimit, Formats := [fmtBackdrop] } }

/-! ## Claim theorems -/

/-- Claim C1 (code bug).  The source intends to cap both target axes to
the original image's dimensions ("Do not upscale"), but the height branch
compares `j.Config.Height` with itself, so the requested height is NEVER
capped: for every config and format the height passed to the transform is
the requested `format.Height`; at the concrete failing input (original
100x50, requested 200x200) `execute` passes width 100 (capped) but height
200, not the original height 50. -/
theorem execute_height_cap_bug :
    (∀ (cfg : ImageConfig) (format : FormatDimensions),
      (targetDims cfg format).2 = format.Height)
    ∧ targetDims { Width := 100, Height := 50 }
        { Name := "thumb", Width := 200, Height := 200, Backdrop := false, Watermark := none }
      = (100, 200)
    ∧ ¬ ((200 : Int) ≤ 50) := by
  refine ⟨?_, by decide, by decide⟩
  intro cfg format
  simp [targetDims]

/-- Claim C2.  Dispatcher dedup invariant: from the initial state, every
trace of `listen` events keeps the in-flight set duplicate-free (at most
one execution per file key); an admission whose key is already in-flight
leaves the state unchanged (no spawn, and `dstep` is total so no error is
surfaced); an admission with a fresh key adds it and spawns exactly that
one job; a completion signal removes the key. -/
theorem listen_dedup (tr : List Event) :
    (drun tr).inflight.Nodup
    ∧ (∀ k, (drun tr).inflight.count k ≤ 1)
    ∧ (∀ j : Job, j.FileDiskPath ∈ (drun tr).inflight →
        dstep (drun tr) (.newJob j) = drun tr)
    ∧ (∀ j : Job, j.FileDiskPath ∉ (drun tr).inflight →
        (dstep (drun tr) (.newJob j)).inflight = j.FileDiskPath :: (drun tr).inflight
        ∧ (dstep (drun tr) (.newJob j)).spawned = (drun tr).spawned ++ [j])
    ∧ (∀ k, (dstep (drun tr) (.done k)).inflight = (drun tr).inflight.erase k
        ∧ k ∉ (dstep (drun tr) (.done k)).inflight) := by
  have hnd := drun_nodup tr
  refine ⟨hnd, ?_, ?_, ?_, ?_⟩
  · intro k
    exact List.nodup_iff_count_le_one.mp hnd k
  · intro j hm
    simp [dstep, hm]
  · intro j hm
    constructor <;> simp [dstep, hm]
  · intro k
    refine ⟨by simp [dstep], ?_⟩
    simp only [dstep]
    exact hnd.not_mem_erase

/-- Witness for C2: after admitting `jobA`, admitting `jobB` (same key,
different parameters) is a no-op — one execution, second submission
dropped. -/
theorem listen_dedup_witness :
    dstep (drun [Event.newJob jobA]) (Event.newJob jobB) = drun [Event.newJob jobA] :=
  (listen_dedup [Event.newJob jobA]).2.2.1 jobB (by decide)

/-- Claim C5.  Watermark anchor math on a zero-origin background box:
Left gives `x = OffsetX`; Right gives `x = (bgW - wmW) - OffsetX`; Center
gives `x = bgW/2 - wmW/2 + OffsetX` (truncating division); an
unrecognized horizontal anchor behaves as Left and is normalized to Left;
symmetrically for Top/Bottom/Center vertically; and the two concrete
examples from the spec evaluate to (175, 85) and (90, 45). -/
theorem watermark_anchor_math (pos : WatermarkPosition) (bgW bgH wmW wmH : Int) :
    (pos.Horizontal = Left →
      ((watermarkPoint pos 0 0 bgW bgH wmW wmH).1).1 = pos.OffsetX)
    ∧ (pos.Horizontal = Right →
      ((watermarkPoint pos 0 0 bgW bgH wmW wmH).1).1 = (bgW - wmW) - pos.OffsetX)
    ∧ (pos.Horizontal = Center →
      ((watermarkPoint pos 0 0 bgW bgH wmW wmH).1).1
        = Int.tdiv bgW 2 - Int.tdiv wmW 2 + pos.OffsetX)
    ∧ (pos.Horizontal ≠ Left → pos.Horizontal ≠ Right → pos.Horizontal ≠ Center →
      ((watermarkPoint pos 0 0 bgW bgH wmW wmH).1).1 = pos.OffsetX
      ∧ ((watermarkPoint pos 0 0 bgW bgH wmW wmH).2).Horizontal = Left)
    ∧ (pos.Vertical = Top →
      ((watermarkPoint pos 0 0 bgW bgH wmW wmH).1).2 = pos.OffsetY)
    ∧ (pos.Vertical = Bottom →
      ((watermarkPoint pos 0 0 bgW bgH wmW wmH).1).2 = (bgH - wmH) - pos.OffsetY)
    ∧ (pos.Vertical = Center →
      ((watermarkPoint pos 0 0 bgW bgH wmW wmH).1).2
        = Int.tdiv bgH 2 - Int.tdiv wmH 2 + pos.OffsetY)
    ∧ (pos.Vertical ≠ Top → pos.Vertical ≠ Bottom → pos.Vertical ≠ Center →
      ((watermarkPoint pos 0 0 bgW bgH wmW wmH).1).2 = pos.OffsetY
      ∧ ((watermarkPoint pos 0 0 bgW bgH wmW wmH).2).Vertical = Top)
    ∧ watermarkPoint { Horizontal := Right, Vertical := Bottom, OffsetX := 5, OffsetY := 5 }
        0 0 200 100 20 10
      = ((175, 85), { Horizontal := Right, Vertical := Bottom, OffsetX := 5, OffsetY := 5 })
    ∧ watermarkPoint { Horizontal := Center, Vertical := Center, OffsetX := 0, OffsetY := 0 }
        0 0 200 100 20 10
      = ((90, 45), { Horizontal := Center, Vertical := Center, OffsetX := 0, OffsetY := 0 }) := by
  refine ⟨?_, ?_, ?_, ?_, ?_, ?_, ?_, ?_, by decide, by decide⟩
  all_goals intro h
  case _ => simp [watermarkPoint, h, Left, Right, Center]
  case _ => simp [watermarkPoint, h, Left, Right, Center]
  case _ => simp [watermarkPoint, h, Left, Right, Center]
  case _ =>
    intro h2 h3
    constructor <;> simp [watermarkPoint, h, h2, h3]
  case _ => simp [watermarkPoint, h, Top, Bottom, Center]
  case _ => simp [watermarkPoint, h, Top, Bottom, Center]
  case _ => simp [watermarkPoint, h, Top, Bottom, Center]
  case _ =>
    intro h2 h3
    constructor <;> simp [watermarkPoint, h, h2, h3]

/-- Witness for C5: an unrecognized horizontal anchor (value `Top`, which
is not a horizontal anchor) places at `x = OffsetX` and is normalized to
`Left`. -/
theorem watermark_anchor_math_witness :
    ((watermarkPoint { Horizontal := Top, Vertical := Left, OffsetX := 7, OffsetY := 8 }
        0 0 200 100 20 10).1).1 = 7
    ∧ ((watermarkPoint { Horizontal := Top, Vertical := Left, OffsetX := 7, OffsetY := 8 }
        0 0 200 100 20 10).2).Horizontal = Left :=
  (watermark_anchor_math
    { Horizontal := Top, Vertical := Left, OffsetX := 7, OffsetY := 8 }
    200 100 20 10).2.2.2.1 (by decide) (by decide) (by decide)

/-- Claim C6.  `Add` rejects every buffer whose header-decoded type is not
jpg, jpeg or png (returning the unsupported-type error and scheduling no
job), and in particular rejects gif buffers even though gif decoding is
registered in the codec registry. -/
theorem Add_type_allowlist :
    (∀ (cfg : ImageConfig) (t path : String) (dims : Option ImageDimensions) (v : Bool),
      t ≠ TypeImageJPG → t ≠ TypeImageJPEG → t ≠ TypeImagePNG →
      Add (.decoded cfg t) path dims v = .error (.unsupportedType t))
    ∧ "gif" ∈ registeredFormats
    ∧ (∀ (cfg : ImageConfig) (path : String) (dims : Option ImageDimensions) (v : Bool),
      Add (.decoded cfg "gif") path dims v = .error (.unsupportedType "gif")) := by
  refine ⟨?_, by decide, ?_⟩
  · intro cfg t path dims v h1 h2 h3
    simp [Add, h1, h2, h3]
  · intro cfg path dims v
    simp [Add, TypeImageJPG, TypeImageJPEG, TypeImagePNG]

/-- Witness for C6: a concrete gif buffer is rejected with the
unsupported-type error. -/
theorem Add_type_allowlist_witness :
    Add (.decoded { Width := 8, Height := 8 } "gif") "up/a.gif" none true
      = .error (.unsupportedType "gif") :=
  Add_type_allowlist.1 { Width := 8, Height := 8 } "gif" "up/a.gif" none true
    (by decide) (by decide) (by decide)

/-- Claim C7.  The no-limit sentinel disables the floor check for its
axis: with `MinWidth = NoLimit` the width floor never rejects (for either
value of `validate`), with `MinHeight = NoLimit` the height floor never
rejects, and with `validate = false` no floor check is performed at all. -/
theorem Add_floor_sentinel (buf : BufferInfo) (path : String)
    (dims : ImageDimensions) (v : Bool) :
    (dims.MinWidth = NoLimit →
      ∀ m, Add buf path (some dims) v ≠ .error (.belowMinWidth m))
    ∧ (dims.MinHeight = NoLimit →
      ∀ m, Add buf path (some dims) v ≠ .error (.belowMinHeight m))
    ∧ (v = false →
      ∀ m, Add buf path (some dims) v ≠ .error (.belowMinWidth m)
        ∧ Add buf path (some dims) v ≠ .error (.belowMinHeight m)) := by
  refine ⟨?_, ?_, ?_⟩
  · intro hW m
    cases buf with
    | notImage => simp [Add]
    | decodeErr => simp [Add]
    | decoded cfg t =>
      simp only [Add, Option.getD_some]
      split
      · split
        · rw [if_neg (by simp [hW])]
          split <;> simp
        · simp
      · simp
  · intro hH m
    cases buf with
    | notImage => simp [Add]
    | decodeErr => simp [Add]
    | decoded cfg t =>
      simp only [Add, Option.getD_some]
      split
      · split
        · split
          · simp
          · rw [if_neg (by simp [hH])]
            simp
        · simp
      · simp
  · intro hv m
    subst hv
    cases buf with
    | notImage => simp [Add]
    | decodeErr => simp [Add]
    | decoded cfg t =>
      simp only [Add, Option.getD_some]
      split <;> simp

/-- Witness for C7: with the default (no-limit) dimensions, a 1x1 png is
never rejected by the width floor. -/
theorem Add_floor_sentinel_witness :
    Add (.decoded { Width := 1, Height := 1 } "png") "p" (some DefaultDimensions) true
      ≠ .error (.belowMinWidth 99) :=
  (Add_floor_sentinel (.decoded { Width := 1, Height := 1 } "png") "p"
    DefaultDimensions true).1 (by decide) 99

/-- Counterexample to claim C3 as stated: in the PROD environment, when
the Asset Provider (`_assetBox.Open`) fails for the watermark key,
`imageProcess` returns the "watermark not found" error and writes no
output file for the format — it does not fall back to the non-watermarked
variant. -/
theorem watermark_fallback_counterexample :
    (imageProcess cfgPROD worldBoxFails "up/img.jpg" 50 40 false fmtWatermarked).res
      = .error .watermarkNotFound := by decide

/-- Claim C3 (amended).  Watermark fallback: in the DEV environment a
failed watermark-asset open is silently skipped and the result equals the
non-watermarked run; likewise in PROD when the asset opens but fails to
decode; but in PROD a failed `_assetBox.Open` for the watermark key makes
`imageProcess` return the "watermark not found" error (no output for that
format). -/
theorem watermark_fallback_amended (cfg : Config) (w : World) (path : String)
    (nw nh : Int) (ls : Bool) (format : FormatDimensions) (pos : WatermarkPosition)
    (hwm : format.Watermark = some pos) :
    (cfg.env = .DEV →
      w.diskOk (assetsPrefix ++ (cfg.diskPathWatermark ++ ":" ++ format.Name)) = false →
      (imageProcess cfg w path nw nh ls format).res
        = (imageProcess cfg w path nw nh ls { format with Watermark := none }).res)
    ∧ (cfg.env = .PROD →
      w.boxOk (cfg.diskPathWatermark ++ ":" ++ format.Name) = true →
      w.boxDecodeOk (cfg.diskPathWatermark ++ ":" ++ format.Name) = false →
      (imageProcess cfg w path nw nh ls format).res
        = (imageProcess cfg w path nw nh ls { format with Watermark := none }).res)
    ∧ (cfg.env = .PROD →
      w.boxOk (cfg.diskPathWatermark ++ ":" ++ format.Name) = false →
      w.diskOk path = true →
      (imageProcess cfg w path nw nh ls format).res = .error .watermarkNotFound) := by
  have hbase : baseImage cfg w path nw nh ls { format with Watermark := none }
      = baseImage cfg w path nw nh ls format := by
    simp [baseImage]
  refine ⟨?_, ?_, ?_⟩
  · intro henv hk
    by_cases hdisk : w.diskOk path
    · simp [imageProcess, henv, hk, hwm, hdisk, hbase]
      split_ifs <;> rfl
    · simp [imageProcess, hdisk]
  · intro henv hbox hdec
    by_cases hdisk : w.diskOk path
    · simp [imageProcess, henv, hbox, hdec, hwm, hdisk, hbase]
      split_ifs <;> rfl
    · simp [imageProcess, hdisk]
  · intro henv hbox hdisk
    simp [imageProcess, henv, hbox, hwm, hdisk]

/-- Witness for the amended C3: in DEV, with only the source file
openable, the watermarked run equals the non-watermarked run. -/
theorem watermark_fallback_amended_witness :
    (imageProcess cfgDEV worldOnlySource "up/img.jpg" 50 40 false fmtWatermarked).res
      = (imageProcess cfgDEV worldOnlySource "up/img.jpg" 50 40 false
          { fmtWatermarked with Watermark := none }).res :=
  (watermark_fallback_amended cfgDEV worldOnlySource "up/img.jpg" 50 40 false
    fmtWatermarked { Horizontal := Left, Vertical := Top, OffsetX := 0, OffsetY := 0 }
    (by decide)).1 rfl (by decide)

/-- Claim C4.  Backdrop fallback: on the backdrop path, whenever the
backdrop asset cannot be loaded (DEV open failure, PROD open failure, or
PROD decode failure), `imageProcess` returns no error and produces the
fitted foreground overlaid in the center of a synthesized solid-color
backdrop of the format's target box, colored with the fixed fallback
NRGBA (0, 29, 56, alpha 0). -/
theorem backdrop_fallback (cfg : Config) (w : World) (path : String)
    (nw nh : Int) (format : FormatDimensions)
    (hB : format.Backdrop = true) (hwm : format.Watermark = none)
    (hsrc : w.diskOk path = true)
    (hfail :
      (cfg.env = .DEV ∧ w.diskOk (assetsPrefix ++ cfg.diskPathBackdrop) = false)
      ∨ (cfg.env = .PROD ∧ w.boxOk cfg.diskPathBackdrop = false)
      ∨ (cfg.env = .PROD ∧ w.boxDecodeOk cfg.diskPathBackdrop = false))
    (hfmt : w.formatOk path = true)
    (hcreate : w.createOk (path ++ ":" ++ format.Name) = true)
    (henc : w.encodeOk (path ++ ":" ++ format.Name) = true) :
    (imageProcess cfg w path nw nh false format).res
      = .ok (path ++ ":" ++ format.Name,
          .overlayCenter (.solid format.Width format.Height navyFallback)
            (.fit (.src path) nw nh)) := by
  have hload : backdropLoad cfg w = none := by
    rcases hfail with ⟨henv, hf⟩ | ⟨henv, hf⟩ | ⟨henv, hf⟩ <;>
      simp [backdropLoad, henv, hf]
  simp [imageProcess, baseImage, hB, hwm, hsrc, hfmt, hcreate, henc, hload]

/-- Witness for C4: forcing the asset box to fail in PROD yields the
solid navy fallback composite and no error. -/
theorem backdrop_fallback_witness :
    (imageProcess cfgPROD worldBoxFails "up/img.jpg" 50 40 false fmtBackdrop).res
      = .ok ("up/img.jpg" ++ ":" ++ fmtBackdrop.Name,
          .overlayCenter (.solid fmtBackdrop.Width fmtBackdrop.Height navyFallback)
            (.fit (.src "up/img.jpg") 50 40)) :=
  backdrop_fallback cfgPROD worldBoxFails "up/img.jpg" 50 40 fmtBackdrop
    rfl rfl rfl (Or.inr (Or.inl ⟨rfl, rfl⟩)) rfl rfl rfl

/-- Claim C8.  An invalid format entry (empty name or non-positive width
or height) is skipped: the outputs of a job containing it are exactly the
outputs of the same job without it (no output for the entry, no job
error — `execute` has no error channel at all — and every other entry is
still processed). -/
theorem execute_skips_invalid_format (cfg : Config) (w : World) (j : Job)
    (pre post : List FormatDimensions) (bad : FormatDimensions)
    (hbad : bad.Name = "" ∨ bad.Width ≤ 0 ∨ bad.Height ≤ 0) :
    (executeFormats cfg w j (pre ++ bad :: post)).1
      = (executeFormats cfg w j (pre ++ post)).1 := by
  induction pre with
  | nil => simp [executeFormats, if_pos hbad]
  | cons f rest ih =>
    by_cases hf : f.Name = "" ∨ f.Width ≤ 0 ∨ f.Height ≤ 0
    · simpa [executeFormats, if_pos hf] using ih
    · simp only [List.cons_append, executeFormats, if_neg hf]
      cases hres : (imageProcess cfg w j.FileDiskPath (targetDims j.Config f).1
          (targetDims j.Config f).2 (landscapeOf j.Config) f).res <;>
        simp [hres, ih]

/-- Witness for C8: with a concrete invalid entry between two valid ones,
the outputs equal those of the job without the invalid entry. -/
theorem execute_skips_invalid_format_witness :
    (executeFormats cfgDEV worldAllOk jobA ([fmtGood] ++ fmtBad :: [fmtGood2])).1
      = (executeFormats cfgDEV worldAllOk jobA ([fmtGood] ++ [fmtGood2])).1 :=
  execute_skips_invalid_format cfgDEV worldAllOk jobA [fmtGood] [fmtGood2] fmtBad
    (Or.inr (Or.inl (by decide)))

/-- Claim C9.  For a job with one valid format entry, the produced image
has the backdrop-composite shape exactly when the entry's `Backdrop` flag
is set and the image is not landscape; `landscape` holds exactly when the
original height is strictly below the original width, and a square image
is not landscape. -/
theorem backdrop_path_iff (cfg : Config) (w : World) (j : Job)
    (format : FormatDimensions)
    (hfm : j.Dimensions.Formats = [format])
    (hval : ¬ (format.Name = "" ∨ format.Width ≤ 0 ∨ format.Height ≤ 0))
    (hwm : format.Watermark = none)
    (hsrc : w.diskOk j.FileDiskPath = true)
    (hfmt : w.formatOk j.FileDiskPath = true)
    (hcreate : w.createOk (j.FileDiskPath ++ ":" ++ format.Name) = true)
    (henc : w.encodeOk (j.FileDiskPath ++ ":" ++ format.Name) = true) :
    (∃ i : Img, (execute cfg w j).1 = [(j.FileDiskPath ++ ":" ++ format.Name, i)]
      ∧ i.isBackdropComposite = (format.Backdrop && !(landscapeOf j.Config)))
    ∧ (landscapeOf j.Config = true ↔ j.Config.Height < j.Config.Width)
    ∧ (∀ n : Int, landscapeOf { Width := n, Height := n } = false) := by
  refine ⟨?_, by simp [landscapeOf], by simp [landscapeOf]⟩
  refine ⟨baseImage cfg w j.FileDiskPath (targetDims j.Config format).1
    (targetDims j.Config format).2 (landscapeOf j.Config) format, ?_, ?_⟩
  · simp [execute, hfm, executeFormats, if_neg hval, imageProcess, hwm, hsrc,
      hfmt, hcreate, henc]
  · unfold baseImage
    cases hcond : format.Backdrop && !(landscapeOf j.Config) with
    | true =>
      cases backdropLoad cfg w <;> simp [Img.isBackdropComposite]
    | false => simp [Img.isBackdropComposite]

/-- Witness for C9: the backdrop entry `fmtBackdrop` on a square (hence
not-landscape) source takes the backdrop path. -/
theorem backdrop_path_iff_witness :
    (∃ i : Img, (execute cfgDEV worldAllOk jobSquare).1
      = [("up/1.jpg" ++ ":" ++ fmtBackdrop.Name, i)]
      ∧ i.isBackdropComposite
        = (fmtBackdrop.Backdrop && !(landscapeOf jobSquare.Config)))
    ∧ (landscapeOf jobSquare.Config = true ↔ jobSquare.Config.Height < jobSquare.Config.Width)
    ∧ (∀ n : Int, landscapeOf { Width := n, Height := n } = false) :=
  backdrop_path_iff cfgDEV worldAllOk jobSquare
    fmtBackdrop rfl (by decide) rfl rfl rfl rfl rfl

/-- Claim C10.  Processing a format entry whose watermark position
carries unrecognized anchors mutates the pointed-to `WatermarkPosition`
in place (horizontal to `Left`, vertical to `Top`), provided the
watermark asset loads; the post-state of the job's format list returned
by `execute` carries the normalized value, which differs from the value
the caller supplied — so the normalization is observable to the caller
and to later jobs reusing the same `ImageDimensions`. -/
theorem watermark_position_mutation (cfg : Config) (w : World) (j : Job)
    (format : FormatDimensions) (pos : WatermarkPosition)
    (hfm : j.Dimensions.Formats = [format])
    (hval : ¬ (format.Name = "" ∨ format.Width ≤ 0 ∨ format.Height ≤ 0))
    (hwm : format.Watermark = some pos)
    (hH : pos.Horizontal ≠ Left ∧ pos.Horizontal ≠ Right ∧ pos.Horizontal ≠ Center)
    (hV : pos.Vertical ≠ Top ∧ pos.Vertical ≠ Bottom ∧ pos.Vertical ≠ Center)
    (hsrc : w.diskOk j.FileDiskPath = true)
    (hload :
      (cfg.env = .DEV
        ∧ w.diskOk (assetsPrefix ++ (cfg.diskPathWatermark ++ ":" ++ format.Name)) = true)
      ∨ (cfg.env = .PROD
        ∧ w.boxOk (cfg.diskPathWatermark ++ ":" ++ format.Name) = true
        ∧ w.boxDecodeOk (cfg.diskPathWatermark ++ ":" ++ format.Name) = true)) :
    (execute cfg w j).2
      = [{ format with Watermark := some { pos with Horizontal := Left, Vertical := Top } }]
    ∧ some { pos with Horizontal := Left, Vertical := Top } ≠ format.Watermark := by
  constructor
  · have hcell : (imageProcess cfg w j.FileDiskPath (targetDims j.Config format).1
        (targetDims j.Config format).2 (landscapeOf j.Config) format).wmCell
        = some { pos with Horizontal := Left, Vertical := Top } := by
      rcases hload with ⟨henv, hok⟩ | ⟨henv, hok, hdec⟩ <;>
        simp [imageProcess, henv, hok, hwm, hsrc, watermarkPoint,
          hH.1, hH.2.1, hH.2.2, hV.1, hV.2.1, hV.2.2, *] <;>
        split_ifs <;> rfl
    simp [execute, hfm, executeFormats, if_neg hval, hcell]
  · rw [hwm]
    intro heq
    have : Left = pos.Horizontal := congrArg (fun o => (o.getD pos).Horizontal) heq
    exact hH.1 this.symm

/-- Witness for C10: running `jobOdd` (unrecognized anchors 9/9) in DEV
with all assets available returns a post-state format list whose
watermark cell was normalized to Left/Top, different from the input. -/
theorem watermark_position_mutation_witness :
    (execute cfgDEV worldAllOk jobOdd).2
      = [{ fmtOdd with Watermark := some { posOdd with Horizontal := Left, Vertical := Top } }]
    ∧ some { posOdd with Horizontal := Left, Vertical := Top } ≠ fmtOdd.Watermark :=
  watermark_position_mutation cfgDEV worldAllOk jobOdd fmtOdd posOdd rfl
    (by decide) rfl ⟨by decide, by decide, by decide⟩ ⟨by decide, by decide, by decide⟩
    rfl (Or.inl ⟨rfl, rfl⟩)

end Imagist
